import Mathlib

/-!
Verification development for the video-cropper pipeline.

The definitions below are a shallow embedding of the repository's code:

* `padBox`, `expandMinArea`, `aspectCorrect`, `clampBox`, `smootherUpdate`,
  `computeCrop` embed `VideoCropper._compute_crop`, `VideoCropper._clamp_box`
  and `CropWindowSmoother.update` from `video_cropper.py`.
* `scaleFor`, `npSliceDims`, `canvasAssign`, `cropAndLetterbox` embed
  `VideoCropper._crop_and_letterbox`.
* `readerLoop`, `writeBatchIdx`, `writtenIdx` embed the producer/consumer
  frame ordering of `VideoCropper._process_video` and
  `VideoCropper._write_batch`.
* `Job`, `applyOp`, `stallScan`, `retentionScan` embed the job-state writes of
  `worker.py`, `api.py` and `cleanup.py`.

Real (Python float) arithmetic is modelled exactly over `ℚ`; `math.sqrt` is
modelled by a rational approximation correct to `10 ^ (-6)` (`ratSqrt`);
Python `int()` truncation toward zero is modelled by `pyInt`.
-/

/-- Python `int()` applied to a real value: truncation toward zero. -/
def pyInt (q : ℚ) : ℤ := q.num.tdiv q.den

/-- Model of `math.sqrt` on nonnegative arguments: the square root rounded
down to a multiple of `10 ^ (-6)`.  The Python code computes a correctly
rounded IEEE-754 square root; the claims under study are insensitive to
errors of this size. -/
def ratSqrt (q : ℚ) : ℚ := ((Nat.sqrt (⌊q * 10 ^ 12⌋.toNat) : ℤ) : ℚ) / 10 ^ 6

/-- An integer rectangle `(x1, y1, x2, y2)`. -/
abbrev IBox : Type := ℤ × ℤ × ℤ × ℤ

/-- A rational rectangle `(x1, y1, x2, y2)`, used by the EMA smoother. -/
abbrev QBox : Type := ℚ × ℚ × ℚ × ℚ

/-- The crop-behaviour fields of `CropperConfig` (video_cropper.py:47-69).
`padFrac` is the source's `padding_ratio`, `minCropFrac` its
`min_crop_ratio`, `alpha` its `smooth_alpha`, `keepAspect` its
`keep_aspect` and `maxUpscale` its `max_upscale`; defaults as in the source. -/
structure CropperConfig where
  padFrac : ℚ := 12 / 100
  minCropFrac : ℚ := 35 / 100
  alpha : ℚ := 85 / 100
  keepAspect : Bool := true
  maxUpscale : ℚ := 1
deriving DecidableEq

/-- Padding step of `_compute_crop` (video_cropper.py:370-379). -/
def padBox (cfg : CropperConfig) (det : IBox) (w h : ℤ) : IBox :=
  let bw : ℤ := max 1 (det.2.2.1 - det.1)
  let bh : ℤ := max 1 (det.2.2.2 - det.2.1)
  let padX : ℤ := pyInt (cfg.padFrac * (bw : ℚ))
  let padY : ℤ := pyInt (cfg.padFrac * (bh : ℚ))
  (max 0 (det.1 - padX), max 0 (det.2.1 - padY),
   min w (det.2.2.1 + padX), min h (det.2.2.2 + padY))

/-- Minimum-crop-area expansion step of `_compute_crop`
(video_cropper.py:381-395). -/
def expandMinArea (cfg : CropperConfig) (b : IBox) (w h : ℤ) : IBox :=
  let minArea : ℚ := cfg.minCropFrac * ((w * h : ℤ) : ℚ)
  let curArea : ℚ := ((max 1 ((b.2.2.1 - b.1) * (b.2.2.2 - b.2.1)) : ℤ) : ℚ)
  if curArea < minArea then
    let cx : ℚ := ((b.1 + b.2.2.1 : ℤ) : ℚ) / 2
    let cy : ℚ := ((b.2.1 + b.2.2.2 : ℤ) : ℚ) / 2
    let ts : ℚ := ratSqrt minArea
    (pyInt (max 0 (cx - ts / 2)), pyInt (max 0 (cy - ts / 2)),
     pyInt (min (w : ℚ) (cx + ts / 2)), pyInt (min (h : ℚ) (cy + ts / 2)))
  else b

/-- Aspect-correction step of `_compute_crop` (video_cropper.py:397-416). -/
def aspectCorrect (cfg : CropperConfig) (b : IBox) (w h : ℤ) : IBox :=
  if cfg.keepAspect then
    let targetAspect : ℚ := (w : ℚ) / (h : ℚ)
    let cw : ℤ := max 1 (b.2.2.1 - b.1)
    let ch : ℤ := max 1 (b.2.2.2 - b.2.1)
    let curAspect : ℚ := (cw : ℚ) / (ch : ℚ)
    let cx : ℚ := ((b.1 + b.2.2.1 : ℤ) : ℚ) / 2
    let cy : ℚ := ((b.2.1 + b.2.2.2 : ℤ) : ℚ) / 2
    if targetAspect < curAspect then
      let newH : ℚ := (cw : ℚ) / targetAspect
      (b.1, pyInt (max 0 (cy - newH / 2)), b.2.2.1, pyInt (min (h : ℚ) (cy + newH / 2)))
    else
      let newW : ℚ := (ch : ℚ) * targetAspect
      (pyInt (max 0 (cx - newW / 2)), b.2.1, pyInt (min (w : ℚ) (cx + newW / 2)), b.2.2.2)
  else b

/-- `VideoCropper._clamp_box` (video_cropper.py:423-430). -/
def clampBox (b : IBox) (w h : ℤ) : IBox :=
  let x1 : ℤ := max 0 (min (w - 1) b.1)
  let y1 : ℤ := max 0 (min (h - 1) b.2.1)
  let x2 : ℤ := max (x1 + 1) (min w b.2.2.1)
  let y2 : ℤ := max (y1 + 1) (min h b.2.2.2)
  (x1, y1, x2, y2)

/-- `CropWindowSmoother.update` (video_cropper.py:201-210): returns the
emitted box and the new stored state. -/
def smootherUpdate (a : ℚ) (prev : Option QBox) (box : QBox) : QBox × Option QBox :=
  match prev with
  | none => (box, some box)
  | some p =>
      let s : QBox := (a * p.1 + (1 - a) * box.1, a * p.2.1 + (1 - a) * box.2.1,
                       a * p.2.2.1 + (1 - a) * box.2.2.1, a * p.2.2.2 + (1 - a) * box.2.2.2)
      (s, some s)

/-- Coercion of an integer box to a rational box (the `float(...)` casts at
video_cropper.py:420). -/
def toQBox (b : IBox) : QBox := ((b.1 : ℚ), (b.2.1 : ℚ), (b.2.2.1 : ℚ), (b.2.2.2 : ℚ))

/-- Rounding of a rational box back to integers (the `int(...)` casts at
video_cropper.py:421). -/
def truncQBox (b : QBox) : IBox := (pyInt b.1, pyInt b.2.1, pyInt b.2.2.1, pyInt b.2.2.2)

/-- Round a rational to the nearest integer, ties to even — the rounding
rule of IEEE-754 arithmetic. -/
def roundEven (q : ℚ) : ℤ :=
  if q - ⌊q⌋ < 1/2 then ⌊q⌋
  else if 1/2 < q - ⌊q⌋ then ⌊q⌋ + 1
  else if ⌊q⌋ % 2 = 0 then ⌊q⌋ else ⌊q⌋ + 1

/-- The binade of a positive rational: the `e` with `2 ^ e ≤ q < 2 ^ (e+1)`. -/
def binadeExp (q : ℚ) : ℤ :=
  let a : ℤ := Nat.log2 q.num.toNat
  let b : ℤ := Nat.log2 q.den
  if (2:ℚ) ^ (a - b) ≤ q then a - b else a - b - 1

/-- IEEE-754 binary64 rounding of a positive rational: round to the nearest
multiple of `2 ^ (binade - 52)` (53 significant bits), ties to even. -/
def flPos (q : ℚ) : ℚ :=
  ((roundEven (q / 2 ^ (binadeExp q - 52)) : ℤ) : ℚ) * 2 ^ (binadeExp q - 52)

/-- IEEE-754 binary64 rounding of a rational value.  Overflow and subnormal
underflow do not occur in the values considered here. -/
def fl (q : ℚ) : ℚ := if q = 0 then 0 else if 0 < q then flPos q else -flPos (-q)

/-- One component of the smoother line `a * px1 + (1 - a) * x1`
(video_cropper.py:208) as IEEE binary64 arithmetic evaluates it: every
intermediate result is rounded. -/
def flEMA (a p x : ℚ) : ℚ := fl (fl (a * p) + fl (fl (1 - a) * x))

/-- `CropWindowSmoother.update` (video_cropper.py:201-210) under the IEEE
binary64 semantics the Python program actually runs: the first update
stores the box with no arithmetic; every later update computes each
component by `a*p + (1-a)*x` with per-operation rounding. -/
def floatSmootherUpdate (a : ℚ) (prev : Option QBox) (box : QBox) :
    QBox × Option QBox :=
  match prev with
  | none => (box, some box)
  | some p =>
      let s : QBox := (flEMA a p.1 box.1, flEMA a p.2.1 box.2.1,
                       flEMA a p.2.2.1 box.2.2.1, flEMA a p.2.2.2 box.2.2.2)
      (s, some s)

/-- The raw window of `_compute_crop` for a present detection: padding, then
minimum-area expansion, then aspect correction (video_cropper.py:368-416). -/
def rawWindow (cfg : CropperConfig) (d : IBox) (w h : ℤ) : IBox :=
  aspectCorrect cfg (expandMinArea cfg (padBox cfg d w h) w h) w h

/-- The clamped window handed to the smoother — the crop window of
`_compute_crop` immediately before smoothing (video_cropper.py:419). -/
def preSmooth (cfg : CropperConfig) (d : IBox) (w h : ℤ) : IBox :=
  clampBox (rawWindow cfg d w h) w h

/-- `VideoCropper._compute_crop` (video_cropper.py:361-421), with the
smoother state `st` passed explicitly.  With no detection the source
returns `(0, 0, w, h)` at once (video_cropper.py:364-366), leaving the
smoother untouched. -/
def computeCrop (cfg : CropperConfig) (st : Option QBox) (det : Option IBox)
    (w h : ℤ) : IBox × Option QBox :=
  match det with
  | none => ((0, 0, w, h), st)
  | some d =>
      let c := preSmooth cfg d w h
      let su := smootherUpdate cfg.alpha st (toQBox c)
      (clampBox (truncQBox su.1) w h, su.2)

/-- Modelled from the spec: the crop derivation of spec §4.3 in which steps
5-7 (clamp, smooth, re-clamp) are applied to every frame, the no-detection
raw window being the full frame.  Used only to compare against
`computeCrop`, which embeds the source. -/
def computeCropSpec (cfg : CropperConfig) (st : Option QBox) (det : Option IBox)
    (w h : ℤ) : IBox × Option QBox :=
  let raw : IBox := match det with
    | none => (0, 0, w, h)
    | some d => rawWindow cfg d w h
  let c := clampBox raw w h
  let su := smootherUpdate cfg.alpha st (toQBox c)
  (clampBox (truncQBox su.1) w h, su.2)

/-- Validity of a crop window inside a `w × h` frame: nonempty and within
bounds (spec §3, CropWindow invariant). -/
def validWindow (b : IBox) (w h : ℤ) : Prop :=
  0 ≤ b.1 ∧ 0 ≤ b.2.1 ∧ b.1 < b.2.2.1 ∧ b.2.1 < b.2.2.2 ∧ b.2.2.1 ≤ w ∧ b.2.2.2 ≤ h

instance (b : IBox) (w h : ℤ) : Decidable (validWindow b w h) := by
  unfold validWindow; infer_instance

/-- Area of an integer box. -/
def boxArea (b : IBox) : ℤ := (b.2.2.1 - b.1) * (b.2.2.2 - b.2.1)

/-- Aspect agreement of a window with the frame, within integer-rounding
tolerance: the cross products `width·h` and `height·w` differ by at most one
pixel on one axis (formalising "aspect ratio equals the frame's aspect ratio
within integer-rounding tolerance", spec §8). -/
def aspectOk (b : IBox) (w h : ℤ) : Prop :=
  |(b.2.2.1 - b.1) * h - (b.2.2.2 - b.2.1) * w| ≤ max w h

instance (b : IBox) (w h : ℤ) : Decidable (aspectOk b w h) := by
  unfold aspectOk; infer_instance

/-- Dimensions of an image buffer, in numpy shape order (`rows = height`,
`cols = width`); the three colour channels are implicit.  Pixel contents are
irrelevant to the dimensional claims under study and are not modelled. -/
structure Img where
  rows : ℕ
  cols : ℕ
deriving DecidableEq

/-- Dimensions of the numpy slice `frame[y1:y2, x1:x2]`
(video_cropper.py:439): slice bounds are clipped to the array's extent and
an empty range yields zero size. -/
def npSliceDims (img : Img) (y1 y2 x1 x2 : ℕ) : Img :=
  ⟨min y2 img.rows - min y1 img.rows, min x2 img.cols - min x1 img.cols⟩

/-- The scale factor computed by `_crop_and_letterbox`
(video_cropper.py:446-448): `min(out_w / cw, out_h / ch)`, additionally
capped at `1.0` when `cfg.max_upscale <= 1.0`. -/
def scaleFor (cfg : CropperConfig) (cw ch outW outH : ℕ) : ℚ :=
  let s : ℚ := min ((outW : ℚ) / (cw : ℚ)) ((outH : ℚ) / (ch : ℚ))
  if cfg.maxUpscale ≤ 1 then min s 1 else s

/-- Modelled from the spec: "a uniform scale factor = min(out_w/crop_w,
out_h/crop_h), capped at `max_upscale`" (spec §4.4).  Used only to compare
against `scaleFor`, which embeds the source. -/
def scaleSpec (cfg : CropperConfig) (cw ch outW outH : ℕ) : ℚ :=
  min (min ((outW : ℚ) / (cw : ℚ)) ((outH : ℚ) / (ch : ℚ))) cfg.maxUpscale

/-- The numpy assignment `canvas[y_off:y_off+new_h, x_off:x_off+new_w] =
resized` (video_cropper.py:457): dimensions of the canvas are unchanged;
`none` models the broadcast error numpy raises when the target region is
smaller than `resized`. -/
def canvasAssign (canvas resized : Img) (yoff xoff : ℕ) : Option Img :=
  if yoff + resized.rows ≤ canvas.rows ∧ xoff + resized.cols ≤ canvas.cols then
    some canvas
  else none

/-- `VideoCropper._crop_and_letterbox` (video_cropper.py:432-458), at the
level of buffer dimensions.  `crop` is `(x1, y1, x2, y2)`; `none` models an
uncaught exception. -/
def cropAndLetterbox (cfg : CropperConfig) (frame : Img) (crop : ℕ × ℕ × ℕ × ℕ)
    (outW outH : ℕ) : Option Img :=
  let cropped := npSliceDims frame crop.2.1 crop.2.2.2 crop.1 crop.2.2.1
  if cropped.rows * cropped.cols * 3 = 0 then some frame
  else
    let scale := scaleFor cfg cropped.cols cropped.rows outW outH
    let newW : ℕ := max 1 (pyInt ((cropped.cols : ℚ) * scale)).toNat
    let newH : ℕ := max 1 (pyInt ((cropped.rows : ℚ) * scale)).toNat
    canvasAssign ⟨outH, outW⟩ ⟨newH, newW⟩ ((outH - newH) / 2) ((outW - newW) / 2)

/-- The `_reader` loop of `_process_video` (video_cropper.py:294-311): frames
are appended to `buf`; each time `buf` reaches the batch size it is pushed
onto the FIFO queue; a final partial batch is pushed at end of stream.  The
returned list is the sequence of batches in queue (push) order. -/
def readerLoop {F : Type} (B : ℕ) : List F → List F → List (List F)
  | buf, [] => if buf.isEmpty then [] else [buf]
  | buf, x :: rest =>
      if B ≤ (buf ++ [x]).length then (buf ++ [x]) :: readerLoop B [] rest
      else readerLoop B (buf ++ [x]) rest

/-- Order of the frame indices written to the encoder by one
`_write_batch` call (video_cropper.py:350-359): the batch is zipped with the
per-frame detection results and written in that order. -/
def writeBatchIdx {F : Type} (detect : List F → List (Option IBox))
    (buf : List (ℕ × F)) : List ℕ :=
  (buf.zip (detect (buf.map Prod.snd))).map fun p => p.1.1

/-- The full sequence of original frame indices written to the encoder's
input stream during one job, in write order: the reader thread enumerates
frames from index 0 (video_cropper.py:305-306), batches flow through the
FIFO queue in push order, and the consumer writes each batch it pops with
`_write_batch`. -/
def writtenIdx {F : Type} (B : ℕ) (detect : List F → List (Option IBox))
    (frames : List F) : List ℕ :=
  ((readerLoop B [] frames.enum).map (writeBatchIdx detect)).flatten

/-- Job status values stored in Firestore (api.py:150, worker.py:83-102,
cleanup.py:79-87). -/
inductive JobStatus
  | queued
  | processing
  | done
  | failed
deriving DecidableEq

/-- Kinds of error message written to a failed job. -/
inductive JobErr
  | stalled
  | missingUri
  | processingFailed
  | unexpected
deriving DecidableEq

/-- A job document in the store (spec §3, api.py:146-154). -/
structure Job where
  status : JobStatus
  created : ℤ
  updated : ℤ
  hasUri : Bool
  error : Option JobErr
  result : Bool
deriving DecidableEq

/-- Job creation by `POST /submit` (api.py:146-154). -/
def submitJob (ts : ℤ) (hasUri : Bool) : Job :=
  ⟨.queued, ts, ts, hasUri, none, false⟩

/-- The stall update of cleanup.py:79-87. -/
def markStalled (now : ℤ) (j : Job) : Job :=
  { j with status := .failed, error := some .stalled, updated := now }

/-- The stall query predicate of cleanup.py:68-69: status equals `s` and
`updated_at_ts < stalled_cutoff`. -/
def stallHit (cutoff : ℤ) (s : JobStatus) (j : Job) : Bool :=
  j.status == s && decide (j.updated < cutoff)

/-- One pass of the stall loop for one status value (cleanup.py:66-88): every
matching job is marked failed-stalled, all others are untouched.  The paged
re-querying loop is collapsed: a job updated by the pass no longer matches
its query. -/
def stallPass (cutoff now : ℤ) (s : JobStatus) (store : List Job) : List Job :=
  store.map fun j => if stallHit cutoff s j then markStalled now j else j

/-- The stall-reclamation scan (cleanup.py:63-88): a pass for `queued`, then
a pass for `processing`. -/
def stallScan (cutoff now : ℤ) (store : List Job) : List Job :=
  stallPass cutoff now .processing (stallPass cutoff now .queued store)

/-- The retention scan (cleanup.py:90-99): delete every job with
`created_at_ts < cutoff`, regardless of status. -/
def retentionScan (cutoff : ℤ) (store : List Job) : List Job :=
  store.filter fun j => ! decide (j.created < cutoff)

/-- The individual store writes the system performs on an existing job
document.  `markProcessing` is worker.py:83 (reached whenever the job exists
and carries a uri — the current status is never checked); `markMissingUri`
is worker.py:79; `markDone` is worker.py:88-94 and `markFailedErr`
worker.py:96-103 (blind writes after the pipeline finishes); `stallMark` is
cleanup.py:79-87; `deleteJob` is cleanup.py:97.  The result is `none` when
the write does not apply (or the document is deleted). -/
inductive WriteOp
  | markProcessing
  | markMissingUri
  | markDone
  | markFailedErr
  | stallMark
  | deleteJob
deriving DecidableEq

/-- Effect of one store write on one job document. -/
def applyOp (op : WriteOp) (cutoff now : ℤ) (j : Job) : Option Job :=
  match op with
  | .markProcessing =>
      if j.hasUri then some { j with status := .processing, updated := now } else none
  | .markMissingUri =>
      if j.hasUri then none
      else some { j with status := .failed, error := some .missingUri, updated := now }
  | .markDone => some { j with status := .done, result := true, updated := now }
  | .markFailedErr =>
      some { j with status := .failed, error := some .processingFailed, updated := now }
  | .stallMark =>
      if stallHit cutoff .queued j || stallHit cutoff .processing j then
        some (markStalled now j)
      else none
  | .deleteJob => none

/-- Terminal job statuses (spec §4.6). -/
def isTerminal (s : JobStatus) : Prop := s = .done ∨ s = .failed

instance (s : JobStatus) : Decidable (isTerminal s) := by
  unfold isTerminal; infer_instance

/-! Helper lemmas about `pyInt`, `ratSqrt` and `clampBox`. -/

theorem pyInt_eq_floor {q : ℚ} (h : 0 ≤ q) : pyInt q = ⌊q⌋ := by
  rw [pyInt, Rat.floor_def]
  exact Int.tdiv_eq_ediv (Rat.num_nonneg.mpr h) (Int.natCast_nonneg _)

theorem pyInt_intCast (n : ℤ) : pyInt (n : ℚ) = n := by
  simp [pyInt, Rat.num_intCast, Rat.den_intCast]

theorem one_le_ratSqrt {q : ℚ} (h : 1 < q) : 1 ≤ ratSqrt q := by
  rw [ratSqrt]
  have hfl : ((10 ^ 12 : ℕ) : ℤ) ≤ ⌊q * 10 ^ 12⌋ := by
    refine Int.le_floor.mpr ?_
    push_cast
    nlinarith
  have htn : (10 ^ 12 : ℕ) ≤ ⌊q * 10 ^ 12⌋.toNat := by
    have := Int.toNat_le_toNat hfl
    simpa using this
  have hs : 10 ^ 6 ≤ Nat.sqrt ⌊q * 10 ^ 12⌋.toNat := by
    refine Nat.le_sqrt.mpr ?_
    calc 10 ^ 6 * 10 ^ 6 = 10 ^ 12 := by norm_num
    _ ≤ _ := htn
  rw [le_div_iff (by norm_num : (0:ℚ) < 10 ^ 6)]
  have : ((10 ^ 6 : ℕ) : ℚ) ≤ ((Nat.sqrt ⌊q * 10 ^ 12⌋.toNat : ℤ) : ℚ) := by
    exact_mod_cast hs
  push_cast at this ⊢
  linarith

theorem clampBox_valid (b : IBox) {w h : ℤ} (hw : 1 ≤ w) (hh : 1 ≤ h) :
    validWindow (clampBox b w h) w h := by
  obtain ⟨x1, y1, x2, y2⟩ := b
  simp only [clampBox, validWindow]
  refine ⟨?_, ?_, ?_, ?_, ?_, ?_⟩ <;> omega

theorem clampBox_of_valid {b : IBox} {w h : ℤ} (hv : validWindow b w h) :
    clampBox b w h = b := by
  obtain ⟨x1, y1, x2, y2⟩ := b
  simp only [validWindow] at hv
  simp only [clampBox, Prod.mk.injEq]
  refine ⟨?_, ?_, ?_, ?_⟩ <;> omega

/-! Helper lemmas for the letterbox renderer. -/

theorem scaleFor_nonneg (cfg : CropperConfig) (cw ch outW outH : ℕ) :
    0 ≤ scaleFor cfg cw ch outW outH := by
  unfold scaleFor
  have h1 : (0:ℚ) ≤ (outW : ℚ) / (cw : ℚ) := by positivity
  have h2 : (0:ℚ) ≤ (outH : ℚ) / (ch : ℚ) := by positivity
  split
  · exact le_min (le_min h1 h2) (by norm_num)
  · exact le_min h1 h2

theorem scaleFor_le_fst (cfg : CropperConfig) (cw ch outW outH : ℕ) :
    scaleFor cfg cw ch outW outH ≤ (outW : ℚ) / (cw : ℚ) := by
  unfold scaleFor
  split
  · exact (min_le_left _ _).trans (min_le_left _ _)
  · exact min_le_left _ _

theorem scaleFor_le_snd (cfg : CropperConfig) (cw ch outW outH : ℕ) :
    scaleFor cfg cw ch outW outH ≤ (outH : ℚ) / (ch : ℚ) := by
  unfold scaleFor
  split
  · exact (min_le_left _ _).trans (min_le_right _ _)
  · exact min_le_right _ _

theorem newDim_le {cw : ℕ} (s : ℚ) (outW : ℕ) (hcw : cw ≠ 0) (hW : 1 ≤ outW)
    (hs0 : 0 ≤ s) (hs : s ≤ (outW : ℚ) / (cw : ℚ)) :
    max 1 (pyInt ((cw : ℚ) * s)).toNat ≤ outW := by
  have hcw' : (0:ℚ) < (cw : ℚ) := by exact_mod_cast Nat.pos_of_ne_zero hcw
  have hmul : (cw : ℚ) * s ≤ (outW : ℚ) := by
    have h := mul_le_mul_of_nonneg_left hs (le_of_lt hcw')
    rwa [mul_div_cancel₀ _ (ne_of_gt hcw')] at h
  have hfl : pyInt ((cw : ℚ) * s) ≤ (outW : ℤ) := by
    rw [pyInt_eq_floor (by positivity)]
    have := Int.floor_le_floor hmul
    rwa [Int.floor_natCast] at this
  exact max_le hW (Int.toNat_le.mpr hfl)

/-! Helper lemmas for the IEEE binary64 model: binade characterisation,
rounding evaluation, and the concrete float trace of the smoother line
`0.3 * 3.0 + (1 - 0.3) * 3.0`. -/

theorem binadeExp_eq {q : ℚ} {e : ℤ} (h1 : (2:ℚ) ^ e ≤ q) (h2 : q < 2 ^ (e + 1)) :
    binadeExp q = e := by
  have hq : 0 < q := lt_of_lt_of_le (zpow_pos (by norm_num) e) h1
  have hqd : 0 < (q.den : ℚ) := by exact_mod_cast q.den_pos
  have hnum0 : q.num.toNat ≠ 0 := by
    have := Rat.num_pos.mpr hq
    omega
  have hmul : q * (q.den : ℚ) = (q.num : ℚ) := by
    have h0 := congrArg (fun x : ℚ => x * (q.den : ℚ)) (Rat.num_div_den q)
    simp only at h0
    rw [div_mul_cancel₀ _ (ne_of_gt hqd)] at h0
    exact h0.symm
  have hcast : ((q.num.toNat : ℕ) : ℚ) = (q.num : ℚ) := by
    have := Rat.num_pos.mpr hq
    exact_mod_cast Int.toNat_of_nonneg this.le
  have hna : ((2:ℚ)) ^ ((Nat.log2 q.num.toNat : ℤ)) ≤ (q.num : ℚ) := by
    rw [zpow_natCast, ← hcast]
    exact_mod_cast Nat.log2_self_le hnum0
  have hna2 : (q.num : ℚ) < 2 ^ ((Nat.log2 q.num.toNat : ℤ) + 1) := by
    rw [show ((Nat.log2 q.num.toNat : ℤ) + 1) = ((Nat.log2 q.num.toNat + 1 : ℕ) : ℤ) by
      push_cast; ring, zpow_natCast, ← hcast]
    exact_mod_cast Nat.lt_log2_self
  have hdb : ((2:ℚ)) ^ ((Nat.log2 q.den : ℤ)) ≤ (q.den : ℚ) := by
    rw [zpow_natCast]
    exact_mod_cast Nat.log2_self_le q.den_nz
  have hdb2 : (q.den : ℚ) < 2 ^ ((Nat.log2 q.den : ℤ) + 1) := by
    rw [show ((Nat.log2 q.den : ℤ) + 1) = ((Nat.log2 q.den + 1 : ℕ) : ℤ) by
      push_cast; ring, zpow_natCast]
    exact_mod_cast Nat.lt_log2_self
  simp only [binadeExp]
  set a : ℤ := (Nat.log2 q.num.toNat : ℤ) with ha
  set b : ℤ := (Nat.log2 q.den : ℤ) with hb
  have h2ne : (2:ℚ) ≠ 0 := by norm_num
  have e1 : (2:ℚ) ^ (a - b - 1) * 2 ^ (b + 1) = 2 ^ a := by
    rw [← zpow_add₀ h2ne]
    congr 1
    ring
  have e2 : (2:ℚ) ^ (a - b + 1) * 2 ^ b = 2 ^ (a + 1) := by
    rw [← zpow_add₀ h2ne]
    congr 1
    ring
  have key1 : (2:ℚ) ^ (a - b - 1) < q := by
    have hlt : (2:ℚ) ^ (a - b - 1) * (q.den : ℚ) < q * (q.den : ℚ) := by
      calc (2:ℚ) ^ (a - b - 1) * (q.den : ℚ)
          < (2:ℚ) ^ (a - b - 1) * 2 ^ (b + 1) :=
            mul_lt_mul_of_pos_left hdb2 (by positivity)
        _ = 2 ^ a := e1
        _ ≤ (q.num : ℚ) := hna
        _ = q * (q.den : ℚ) := hmul.symm
    exact (mul_lt_mul_right hqd).mp hlt
  have key2 : q < (2:ℚ) ^ (a - b + 1) := by
    have hlt : q * (q.den : ℚ) < (2:ℚ) ^ (a - b + 1) * (q.den : ℚ) := by
      calc q * (q.den : ℚ) = (q.num : ℚ) := hmul
        _ < 2 ^ (a + 1) := hna2
        _ = 2 ^ (a - b + 1) * 2 ^ b := e2.symm
        _ ≤ 2 ^ (a - b + 1) * (q.den : ℚ) :=
            mul_le_mul_of_nonneg_left hdb (by positivity)
    exact (mul_lt_mul_right hqd).mp hlt
  split_ifs with hif
  · have hlt1 : a - b < e + 1 := by
      exact_mod_cast (zpow_lt_zpow_iff_right₀ (by norm_num : (1:ℚ) < 2)).mp
        (lt_of_le_of_lt hif h2)
    have hlt2 : e < a - b + 1 := by
      exact_mod_cast (zpow_lt_zpow_iff_right₀ (by norm_num : (1:ℚ) < 2)).mp
        (lt_of_le_of_lt h1 key2)
    omega
  · push_neg at hif
    have hlt1 : e < a - b := by
      exact_mod_cast (zpow_lt_zpow_iff_right₀ (by norm_num : (1:ℚ) < 2)).mp
        (lt_of_le_of_lt h1 hif)
    have hlt2 : a - b - 1 < e + 1 := by
      exact_mod_cast (zpow_lt_zpow_iff_right₀ (by norm_num : (1:ℚ) < 2)).mp
        (lt_trans key1 h2)
    omega

theorem fl_eval {q : ℚ} {e : ℤ} (h1 : (2:ℚ) ^ e ≤ q) (h2 : q < 2 ^ (e + 1)) :
    fl q = ((roundEven (q / 2 ^ (e - 52)) : ℤ) : ℚ) * 2 ^ (e - 52) := by
  have hq : 0 < q := lt_of_lt_of_le (zpow_pos (by norm_num) e) h1
  rw [fl, if_neg (ne_of_gt hq), if_pos hq, flPos, binadeExp_eq h1 h2]

theorem fl_alpha : fl (3/10 : ℚ) = 5404319552844595 / 2 ^ 54 := by
  rw [fl_eval (e := -2) (by norm_num) (by norm_num)]
  norm_num [roundEven]

theorem fl_one_sub : fl (1 - 5404319552844595 / 2 ^ 54 : ℚ) = 6305039478318694 / 2 ^ 53 := by
  rw [fl_eval (e := -1) (by norm_num) (by norm_num)]
  norm_num [roundEven]

theorem fl_ax : fl (5404319552844595 / 2 ^ 54 * 3 : ℚ) = 8106479329266892 / 2 ^ 53 := by
  rw [fl_eval (e := -1) (by norm_num) (by norm_num)]
  norm_num [roundEven]

theorem fl_bx : fl (6305039478318694 / 2 ^ 53 * 3 : ℚ) = 4728779608739020 / 2 ^ 51 := by
  rw [fl_eval (e := 1) (by norm_num) (by norm_num)]
  norm_num [roundEven]

theorem fl_sum : fl (8106479329266892 / 2 ^ 53 + 4728779608739020 / 2 ^ 51 : ℚ) =
    6755399441055743 / 2 ^ 51 := by
  rw [fl_eval (e := 1) (by norm_num) (by norm_num)]
  norm_num [roundEven]

theorem flEMA_drift : flEMA (fl (3/10)) 3 3 = 6755399441055743 / 2 ^ 51 := by
  rw [flEMA, fl_alpha, fl_one_sub, fl_ax, fl_bx, fl_sum]

/-- Counterexample to C6 as stated: under the IEEE binary64 arithmetic the
program actually runs (`floatSmootherUpdate`), with `α = float(0.3)` — inside
the claimed range `(0, 1]` and reachable via `SMOOTH_ALPHA` — and
`b = (3, 3, 3, 3)`, the first update stores `b`, but the second update with
the same `b` returns `0.3*3.0 + 0.7*3.0 = 2.9999999999999996 ≠ 3.0` in every
component (one ulp below 3), and stores that drifted box: exact idempotence
is false of the code for general `α`. -/
theorem claim_C6_counterexample :
    0 < fl (3/10) ∧ fl (3/10) ≤ 1 ∧
    floatSmootherUpdate (fl (3/10)) none (3, 3, 3, 3) = ((3, 3, 3, 3), some (3, 3, 3, 3)) ∧
    (floatSmootherUpdate (fl (3/10)) (some (3, 3, 3, 3)) (3, 3, 3, 3)).1 ≠ (3, 3, 3, 3) ∧
    (floatSmootherUpdate (fl (3/10)) (some (3, 3, 3, 3)) (3, 3, 3, 3)).2 ≠
      some (3, 3, 3, 3) := by
  refine ⟨by rw [fl_alpha]; norm_num, by rw [fl_alpha]; norm_num, rfl, ?_, ?_⟩
  · simp only [floatSmootherUpdate, flEMA_drift]
    intro hco
    simp only [Prod.mk.injEq] at hco
    exact absurd hco.1 (by norm_num)
  · simp only [floatSmootherUpdate, flEMA_drift]
    intro hco
    simp only [Option.some.injEq, Prod.mk.injEq] at hco
    exact absurd hco.1 (by norm_num)

/-- C6 (amended): the smoother is idempotent on a constant input sequence up
to floating-point rounding: the first update stores the box `b` unchanged
(exactly, even in the program's float semantics — no arithmetic is
performed), and in the idealised exact (real-number) arithmetic of the EMA
formula every subsequent update with the same `b` returns `b` and leaves the
stored state equal to `b`, for every `α ∈ (0, 1]`; in IEEE binary64
arithmetic the returned box can drift below `b` by one unit in the last
place. -/
theorem claim_C6 (a : ℚ) (b : QBox) (h0 : 0 < a) (h1 : a ≤ 1) :
    floatSmootherUpdate a none b = (b, some b) ∧
    smootherUpdate a none b = (b, some b) ∧
    smootherUpdate a (some b) b = (b, some b) := by
  have key : ∀ x : ℚ, a * x + (1 - a) * x = x := fun x => by ring
  refine ⟨rfl, rfl, ?_⟩
  obtain ⟨x1, y1, x2, y2⟩ := b
  simp [smootherUpdate, key]

/-- Witness for C6 (amended) at `α = 1/2`, `b = (1, 2, 3, 4)`. -/
theorem claim_C6_witness :
    floatSmootherUpdate (1/2) none (1, 2, 3, 4) = ((1, 2, 3, 4), some (1, 2, 3, 4)) ∧
    smootherUpdate (1/2) none (1, 2, 3, 4) = ((1, 2, 3, 4), some (1, 2, 3, 4)) ∧
    smootherUpdate (1/2) (some (1, 2, 3, 4)) (1, 2, 3, 4) =
      ((1, 2, 3, 4), some (1, 2, 3, 4)) :=
  claim_C6 (1/2) (1, 2, 3, 4) (by norm_num) (by norm_num)

/-- Counterexample to C4 as stated: with `max_upscale = 2`, a `10×10` crop
and a `100×100` output, the code computes scale `10` (no cap is applied when
`max_upscale > 1`), while the claimed formula
`min(out_w/crop_w, out_h/crop_h)` capped at `max_upscale` gives `2`. -/
theorem claim_C4_counterexample :
    scaleFor { maxUpscale := 2 } 10 10 100 100 ≠
      scaleSpec { maxUpscale := 2 } 10 10 100 100 := by
  norm_num [scaleFor, scaleSpec]

/-- C4 (amended): the renderer's scale factor is
`min(out_w/crop_w, out_h/crop_h)`, capped at `1.0` exactly when
`max_upscale ≤ 1.0` and uncapped otherwise; in particular at the default
`max_upscale = 1.0` it equals the claimed `min(out_w/crop_w, out_h/crop_h)`
capped at `max_upscale`. -/
theorem claim_C4 (cfg : CropperConfig) (cw ch outW outH : ℕ)
    (h : cfg.maxUpscale = 1) :
    scaleFor cfg cw ch outW outH = scaleSpec cfg cw ch outW outH := by
  simp only [scaleFor, scaleSpec, h]
  rw [if_pos le_rfl]

/-- Witness for C4 at the default configuration and a `10×10` crop in a
`100×100` output. -/
theorem claim_C4_witness :
    scaleFor {} 10 10 100 100 = scaleSpec {} 10 10 100 100 :=
  claim_C4 {} 10 10 100 100 rfl

/-- C7: for every frame whose buffer has the declared stream dimensions
`outW × outH` and every crop window (degenerate windows included), the frame
returned by `_crop_and_letterbox` has dimensions exactly `outW × outH`, and
no numpy broadcast error occurs. -/
theorem claim_C7 (cfg : CropperConfig) (crop : ℕ × ℕ × ℕ × ℕ) {outW outH : ℕ}
    (hW : 1 ≤ outW) (hH : 1 ≤ outH) :
    cropAndLetterbox cfg ⟨outH, outW⟩ crop outW outH = some ⟨outH, outW⟩ := by
  unfold cropAndLetterbox
  by_cases hz :
      (npSliceDims ⟨outH, outW⟩ crop.2.1 crop.2.2.2 crop.1 crop.2.2.1).rows *
        (npSliceDims ⟨outH, outW⟩ crop.2.1 crop.2.2.2 crop.1 crop.2.2.1).cols * 3 = 0
  · rw [if_pos hz]
  · rw [if_neg hz]
    have hcols :
        (npSliceDims ⟨outH, outW⟩ crop.2.1 crop.2.2.2 crop.1 crop.2.2.1).cols ≠ 0 := by
      intro h0
      exact hz (by rw [h0]; ring)
    have hrows :
        (npSliceDims ⟨outH, outW⟩ crop.2.1 crop.2.2.2 crop.1 crop.2.2.1).rows ≠ 0 := by
      intro h0
      exact hz (by rw [h0]; ring)
    have h1 := newDim_le
      (scaleFor cfg (npSliceDims ⟨outH, outW⟩ crop.2.1 crop.2.2.2 crop.1 crop.2.2.1).cols
        (npSliceDims ⟨outH, outW⟩ crop.2.1 crop.2.2.2 crop.1 crop.2.2.1).rows outW outH)
      outW hcols hW
      (scaleFor_nonneg cfg _ _ outW outH) (scaleFor_le_fst cfg _ _ outW outH)
    have h2 := newDim_le
      (scaleFor cfg (npSliceDims ⟨outH, outW⟩ crop.2.1 crop.2.2.2 crop.1 crop.2.2.1).cols
        (npSliceDims ⟨outH, outW⟩ crop.2.1 crop.2.2.2 crop.1 crop.2.2.1).rows outW outH)
      outH hrows hH
      (scaleFor_nonneg cfg _ _ outW outH) (scaleFor_le_snd cfg _ _ outW outH)
    unfold canvasAssign
    rw [if_pos]
    exact ⟨by dsimp only; omega, by dsimp only; omega⟩

/-- Witness for C7: a `20×10` frame with an interior crop window. -/
theorem claim_C7_witness :
    cropAndLetterbox {} ⟨10, 20⟩ (3, 4, 9, 9) 20 10 = some ⟨10, 20⟩ :=
  claim_C7 {} (3, 4, 9, 9) (by norm_num) (by norm_num)

/-- C10: for all integer frame dimensions `w ≥ 1`, `h ≥ 1` and any integer
box whatsoever, `_clamp_box` returns a window with `0 ≤ x1 < x2 ≤ w` and
`0 ≤ y1 < y2 ≤ h` (width and height at least 1, inside the frame);
consequently the crop slice taken in `_crop_and_letterbox` from a `w × h`
frame has positive dimensions, so the zero-area defensive fallback branch
is unreachable for clamped windows. -/
theorem claim_C10 (b : IBox) {w h : ℤ} (hw : 1 ≤ w) (hh : 1 ≤ h) :
    validWindow (clampBox b w h) w h ∧
    0 < (npSliceDims ⟨h.toNat, w.toNat⟩ (clampBox b w h).2.1.toNat
          (clampBox b w h).2.2.2.toNat (clampBox b w h).1.toNat
          (clampBox b w h).2.2.1.toNat).rows ∧
    0 < (npSliceDims ⟨h.toNat, w.toNat⟩ (clampBox b w h).2.1.toNat
          (clampBox b w h).2.2.2.toNat (clampBox b w h).1.toNat
          (clampBox b w h).2.2.1.toNat).cols := by
  have hv := clampBox_valid b hw hh
  obtain ⟨hx1, hy1, hxx, hyy, hx2, hy2⟩ := hv
  refine ⟨⟨hx1, hy1, hxx, hyy, hx2, hy2⟩, ?_, ?_⟩
  · simp only [npSliceDims]
    omega
  · simp only [npSliceDims]
    omega

/-- Witness for C10: a wildly out-of-range box clamped into a `100 × 50`
frame. -/
theorem claim_C10_witness :
    validWindow (clampBox (-5, 700, 900, -3) 100 50) 100 50 ∧
    0 < (npSliceDims ⟨(50:ℤ).toNat, (100:ℤ).toNat⟩
          (clampBox (-5, 700, 900, -3) 100 50).2.1.toNat
          (clampBox (-5, 700, 900, -3) 100 50).2.2.2.toNat
          (clampBox (-5, 700, 900, -3) 100 50).1.toNat
          (clampBox (-5, 700, 900, -3) 100 50).2.2.1.toNat).rows ∧
    0 < (npSliceDims ⟨(50:ℤ).toNat, (100:ℤ).toNat⟩
          (clampBox (-5, 700, 900, -3) 100 50).2.1.toNat
          (clampBox (-5, 700, 900, -3) 100 50).2.2.2.toNat
          (clampBox (-5, 700, 900, -3) 100 50).1.toNat
          (clampBox (-5, 700, 900, -3) 100 50).2.2.1.toNat).cols :=
  claim_C10 (-5, 700, 900, -3) (by norm_num) (by norm_num)

/-! Helper lemmas for the pipeline frame-ordering claim. -/

theorem readerLoop_flatten {F : Type} (B : ℕ) (xs : List F) :
    ∀ buf : List F, (readerLoop B buf xs).flatten = buf ++ xs := by
  induction xs with
  | nil =>
      intro buf
      by_cases hb : buf.isEmpty
      · simp only [readerLoop, if_pos hb, List.flatten_nil]
        rw [List.isEmpty_iff.mp hb]
        simp
      · simp [readerLoop, if_neg hb]
  | cons x rest ih =>
      intro buf
      simp only [readerLoop]
      by_cases hc : B ≤ (buf ++ [x]).length
      · simp only [if_pos hc, List.flatten_cons, ih]
        simp
      · simp only [if_neg hc, ih]
        simp

theorem writeBatchIdx_eq {F : Type} (detect : List F → List (Option IBox))
    (hdet : ∀ l, (detect l).length = l.length) (buf : List (ℕ × F)) :
    writeBatchIdx detect buf = buf.map Prod.fst := by
  unfold writeBatchIdx
  have hl : buf.length ≤ (detect (buf.map Prod.snd)).length := by
    rw [hdet, List.length_map]
  calc (buf.zip (detect (buf.map Prod.snd))).map (fun p => p.1.1)
      = ((buf.zip (detect (buf.map Prod.snd))).map Prod.fst).map Prod.fst := by
        rw [List.map_map]
        rfl
    _ = buf.map Prod.fst := by rw [List.map_fst_zip _ _ hl]

/-- C2: for every job over a sequence of `N` frames, the raw frame bytes are
written to the external encoder in strictly increasing original frame-index
order `0, 1, …, N−1`: the reader thread pushes batches into the FIFO queue
in read order, and within each batch frames are detected, rendered and
written in their original order.  The detector is any batcher satisfying
the contract of one detection result per input frame. -/
theorem claim_C2 {F : Type} (B : ℕ) (detect : List F → List (Option IBox))
    (frames : List F) (hdet : ∀ l, (detect l).length = l.length) :
    writtenIdx B detect frames = List.range frames.length ∧
    List.Chain' (· < ·) (writtenIdx B detect frames) := by
  have heq : writtenIdx B detect frames = List.range frames.length := by
    unfold writtenIdx
    calc ((readerLoop B [] frames.enum).map (writeBatchIdx detect)).flatten
        = ((readerLoop B [] frames.enum).map (List.map Prod.fst)).flatten := by
          congr 1
          exact List.map_congr_left fun buf _ => writeBatchIdx_eq detect hdet buf
      _ = (readerLoop B [] frames.enum).flatten.map Prod.fst := by
          rw [List.map_flatten]
      _ = frames.enum.map Prod.fst := by rw [readerLoop_flatten, List.nil_append]
      _ = List.range frames.length := List.enum_map_fst frames
  refine ⟨heq, ?_⟩
  rw [heq]
  exact (List.pairwise_lt_range _).chain'

/-- Witness for C2: three frames in batches of two, under a detector that
reports no person anywhere. -/
theorem claim_C2_witness :
    writtenIdx 2 (fun l => l.map fun _ => none) [10, 20, 30] = List.range 3 ∧
    List.Chain' (· < ·) (writtenIdx 2 (fun l => l.map fun _ => none) [10, 20, 30]) :=
  claim_C2 2 (fun l => l.map fun _ => none) [10, 20, 30]
    (fun l => by rw [List.length_map])

/-- Counterexample to C8 as stated: the worker's claim write
(worker.py:83) updates the status to `processing` without checking the
current status, so on a duplicate task delivery it moves a `done` job back
to `processing` — an operation of the system moving a terminal job to a
non-terminal status. -/
theorem claim_C8_counterexample :
    isTerminal (⟨.done, 0, 0, true, none, true⟩ : Job).status ∧
    applyOp .markProcessing 0 5 ⟨.done, 0, 0, true, none, true⟩ =
      some ⟨.processing, 0, 5, true, none, true⟩ ∧
    ¬ isTerminal JobStatus.processing := by
  refine ⟨Or.inl rfl, rfl, ?_⟩
  intro hc
  rcases hc with hc | hc <;> exact JobStatus.noConfusion hc

/-- C8 (amended): no store write ever sets a job's status to `queued`
(`queued` arises only at creation), and no write other than the worker's
unconditional processing-claim moves a `done`/`failed` job to a
non-terminal status; that claim write, applied by a duplicate delivery,
is the one transition out of a terminal state other than deletion.
(`queued → failed` is also directly reachable, via `markMissingUri` or
`stallMark`, without passing through `processing`.) -/
theorem claim_C8 (op : WriteOp) (cutoff now : ℤ) (j j' : Job)
    (happ : applyOp op cutoff now j = some j') :
    j'.status ≠ .queued ∧
    (op ≠ .markProcessing → isTerminal j.status → isTerminal j'.status) := by
  cases op with
  | markProcessing =>
      by_cases hu : j.hasUri
      · simp only [applyOp, if_pos hu, Option.some.injEq] at happ
        subst happ
        exact ⟨by simp, fun hne _ => absurd rfl hne⟩
      · simp [applyOp, hu] at happ
  | markMissingUri =>
      by_cases hu : j.hasUri
      · simp [applyOp, hu] at happ
      · simp only [applyOp, if_neg hu, Option.some.injEq] at happ
        subst happ
        exact ⟨by simp, fun _ _ => Or.inr rfl⟩
  | markDone =>
      simp only [applyOp, Option.some.injEq] at happ
      subst happ
      exact ⟨by simp, fun _ _ => Or.inl rfl⟩
  | markFailedErr =>
      simp only [applyOp, Option.some.injEq] at happ
      subst happ
      exact ⟨by simp, fun _ _ => Or.inr rfl⟩
  | stallMark =>
      by_cases hs : stallHit cutoff .queued j || stallHit cutoff .processing j
      · simp only [applyOp, if_pos hs, Option.some.injEq] at happ
        subst happ
        exact ⟨by simp [markStalled], fun _ _ => Or.inr rfl⟩
      · simp [applyOp, hs] at happ
  | deleteJob => simp [applyOp] at happ

/-- Witness for C8: completing a (stall-failed) job writes `done` — a
terminal-to-terminal write that never re-enters `queued`. -/
theorem claim_C8_witness :
    (⟨.done, 0, 5, true, some .processingFailed, true⟩ : Job).status ≠ .queued ∧
    (WriteOp.markDone ≠ .markProcessing →
      isTerminal (⟨.failed, 0, 0, true, some .processingFailed, false⟩ : Job).status →
      isTerminal (⟨.done, 0, 5, true, some .processingFailed, true⟩ : Job).status) :=
  claim_C8 .markDone 0 5 ⟨.failed, 0, 0, true, some .processingFailed, false⟩
    ⟨.done, 0, 5, true, some .processingFailed, true⟩ rfl

/-- C9: one run of the stall-reclamation scan is exactly the pointwise map
that turns each `queued`/`processing` job whose `updated_at_ts` is older
than the stall cutoff into a failed job with the stalled message (leaving
every other job record unchanged), and one run of the retention scan keeps
exactly the jobs whose `created_at_ts` is not older than the retention
cutoff — deleting every older job regardless of its status. -/
theorem claim_C9 (cutoff retCutoff now : ℤ) (store : List Job) :
    stallScan cutoff now store =
      store.map (fun j =>
        if stallHit cutoff .queued j || stallHit cutoff .processing j
        then markStalled now j else j) ∧
    ∀ j : Job, j ∈ retentionScan retCutoff store ↔
      j ∈ store ∧ ¬ j.created < retCutoff := by
  constructor
  · unfold stallScan stallPass
    rw [List.map_map]
    apply List.map_congr_left
    intro j _
    by_cases hq : stallHit cutoff .queued j
    · have hp : stallHit cutoff .processing (markStalled now j) = false := by
        simp [stallHit, markStalled]
      simp [Function.comp, hq, hp]
    · by_cases hp : stallHit cutoff .processing j
      · simp [Function.comp, hq, hp]
      · simp [Function.comp, hq, hp]
  · intro j
    simp [retentionScan, List.mem_filter]


theorem pyInt_eval {q : ℚ} {n : ℤ} (h0 : 0 ≤ q) (h1 : (n:ℚ) ≤ q) (h2 : q < n + 1) :
    pyInt q = n := by
  rw [pyInt_eq_floor h0]
  exact Int.floor_eq_iff.mpr ⟨h1, h2⟩

theorem ratSqrt_val_350000 : ratSqrt ((35:ℚ)/100 * ((1000 * 1000 : ℤ) : ℚ)) = 591607978 / 10 ^ 6 := by
  unfold ratSqrt
  have harg : ((35:ℚ)/100 * ((1000 * 1000 : ℤ) : ℚ)) * 10 ^ 12 = ((350000000000000000 : ℤ) : ℚ) := by
    push_cast
    norm_num
  rw [harg, Int.floor_intCast]
  have htn : (350000000000000000 : ℤ).toNat = 350000000000000000 := rfl
  rw [htn]
  have hs : Nat.sqrt 350000000000000000 = 591607978 := by
    have h1 : 591607978 ≤ Nat.sqrt 350000000000000000 := Nat.le_sqrt.mpr (by norm_num)
    have h2 : Nat.sqrt 350000000000000000 < 591607979 := by
      rw [Nat.sqrt_lt]
      norm_num
    omega
  rw [hs]
  norm_num

theorem padBox_eval_cx1 : padBox { padFrac := 1/10, minCropFrac := 35/100 } (400, 400, 600, 600) 1000 1000
    = (380, 380, 620, 620) := by
  simp only [padBox]
  norm_num
  rw [pyInt_eval (n := 20) (by norm_num) (by norm_num) (by norm_num)]
  norm_num

theorem expandMinArea_eval_cx1 : expandMinArea { padFrac := 1/10, minCropFrac := 35/100 }
    (380, 380, 620, 620) 1000 1000 = (204, 204, 795, 795) := by
  simp only [expandMinArea]
  rw [if_pos]
  · rw [ratSqrt_val_350000]
    norm_num [max_def, min_def]
    constructor
    · rw [pyInt_eval (n := 204) (by norm_num) (by norm_num) (by norm_num)]
    · rw [pyInt_eval (n := 795) (by norm_num) (by norm_num) (by norm_num)]
  · norm_num

theorem padBox_valid (cfg : CropperConfig) (hpad : 0 ≤ cfg.padFrac) {d : IBox} {w h : ℤ}
    (hv : validWindow d w h) : validWindow (padBox cfg d w h) w h := by
  obtain ⟨dx1, dy1, dx2, dy2⟩ := d
  obtain ⟨h1, h2, h3, h4, h5, h6⟩ := hv
  have hcx : (0:ℚ) ≤ ((max 1 (dx2 - dx1) : ℤ) : ℚ) := by
    have hx : (0:ℤ) ≤ max 1 (dx2 - dx1) := le_trans zero_le_one (le_max_left _ _)
    exact_mod_cast hx
  have hcy : (0:ℚ) ≤ ((max 1 (dy2 - dy1) : ℤ) : ℚ) := by
    have hy : (0:ℤ) ≤ max 1 (dy2 - dy1) := le_trans zero_le_one (le_max_left _ _)
    exact_mod_cast hy
  have hpx : 0 ≤ pyInt (cfg.padFrac * ((max 1 (dx2 - dx1) : ℤ) : ℚ)) := by
    rw [pyInt_eq_floor (mul_nonneg hpad hcx)]
    exact Int.floor_nonneg.mpr (mul_nonneg hpad hcx)
  have hpy : 0 ≤ pyInt (cfg.padFrac * ((max 1 (dy2 - dy1) : ℤ) : ℚ)) := by
    rw [pyInt_eq_floor (mul_nonneg hpad hcy)]
    exact Int.floor_nonneg.mpr (mul_nonneg hpad hcy)
  simp only [padBox, validWindow] at *
  refine ⟨?_, ?_, ?_, ?_, ?_, ?_⟩ <;> omega

theorem floor_axis {c t W : ℚ} (hc1 : 1/2 ≤ c) (hc2 : c ≤ W - 1/2) (ht : 1 ≤ t) (hW : 1 ≤ W) :
    0 ≤ ⌊max 0 (c - t/2)⌋ ∧ ⌊max 0 (c - t/2)⌋ < ⌊min W (c + t/2)⌋ ∧ ⌊min W (c + t/2)⌋ ≤ ⌊W⌋ := by
  have hstep : max 0 (c - t/2) + 1 ≤ min W (c + t/2) := by
    rcases le_or_lt (c - t/2) 0 with hle | hgt
    · rw [max_eq_left hle]
      exact le_min (by linarith) (by linarith)
    · rw [max_eq_right hgt.le]
      exact le_min (by linarith) (by linarith)
  refine ⟨Int.floor_nonneg.mpr (le_max_left 0 _), ?_, Int.floor_le_floor (min_le_left _ _)⟩
  have h2 := Int.floor_le_floor hstep
  rw [Int.floor_add_one] at h2
  omega

theorem expandMinArea_valid (cfg : CropperConfig) {b : IBox} {w h : ℤ}
    (hw : 1 ≤ w) (hh : 1 ≤ h) (hv : validWindow b w h) :
    validWindow (expandMinArea cfg b w h) w h ∧
    (cfg.minCropFrac * ((w * h : ℤ) : ℚ) ≤ ((boxArea b : ℤ) : ℚ) →
      expandMinArea cfg b w h = b) := by
  obtain ⟨x1, y1, x2, y2⟩ := b
  simp only [validWindow] at hv
  obtain ⟨h1, h2, h3, h4, h5, h6⟩ := hv
  by_cases hbr : ((max 1 ((x2 - x1) * (y2 - y1)) : ℤ) : ℚ) < cfg.minCropFrac * ((w * h : ℤ) : ℚ)
  · -- expansion branch taken
    have hA1 : (1:ℤ) ≤ (x2 - x1) * (y2 - y1) := by nlinarith
    have hmax : (max 1 ((x2 - x1) * (y2 - y1)) : ℤ) = (x2 - x1) * (y2 - y1) := max_eq_right hA1
    have hgt1 : (1:ℚ) < cfg.minCropFrac * ((w * h : ℤ) : ℚ) := by
      have : (1:ℚ) ≤ ((max 1 ((x2 - x1) * (y2 - y1)) : ℤ) : ℚ) := by
        exact_mod_cast le_max_left 1 ((x2 - x1) * (y2 - y1))
      linarith
    have hts : 1 ≤ ratSqrt (cfg.minCropFrac * ((w * h : ℤ) : ℚ)) := one_le_ratSqrt hgt1
    have hW' : (1:ℚ) ≤ ((w:ℤ) : ℚ) := by exact_mod_cast hw
    have hH' : (1:ℚ) ≤ ((h:ℤ) : ℚ) := by exact_mod_cast hh
    have hcx1 : 1/2 ≤ ((x1 + x2 : ℤ) : ℚ) / 2 := by
      have : (1:ℚ) ≤ ((x1 + x2 : ℤ) : ℚ) := by exact_mod_cast (by omega : (1:ℤ) ≤ x1 + x2)
      linarith
    have hcx2 : ((x1 + x2 : ℤ) : ℚ) / 2 ≤ ((w:ℤ) : ℚ) - 1/2 := by
      have : ((x1 + x2 : ℤ) : ℚ) ≤ 2 * ((w:ℤ) : ℚ) - 1 := by
        exact_mod_cast (by omega : (x1 + x2 : ℤ) ≤ 2 * w - 1)
      linarith
    have hcy1 : 1/2 ≤ ((y1 + y2 : ℤ) : ℚ) / 2 := by
      have : (1:ℚ) ≤ ((y1 + y2 : ℤ) : ℚ) := by exact_mod_cast (by omega : (1:ℤ) ≤ y1 + y2)
      linarith
    have hcy2 : ((y1 + y2 : ℤ) : ℚ) / 2 ≤ ((h:ℤ) : ℚ) - 1/2 := by
      have : ((y1 + y2 : ℤ) : ℚ) ≤ 2 * ((h:ℤ) : ℚ) - 1 := by
        exact_mod_cast (by omega : (y1 + y2 : ℤ) ≤ 2 * h - 1)
      linarith
    obtain ⟨hxa, hxb, hxc⟩ := floor_axis hcx1 hcx2 hts hW'
    obtain ⟨hya, hyb, hyc⟩ := floor_axis hcy1 hcy2 hts hH'
    rw [Int.floor_intCast] at hxc hyc
    constructor
    · simp only [expandMinArea, if_pos hbr, validWindow]
      rw [pyInt_eq_floor (le_max_left 0 _), pyInt_eq_floor (le_max_left 0 _),
          pyInt_eq_floor (le_min (by linarith) (by linarith)),
          pyInt_eq_floor (le_min (by linarith) (by linarith))]
      exact ⟨hxa, hya, hxb, hyb, hxc, hyc⟩
    · intro har
      exfalso
      simp only [boxArea] at har
      have hc : (((x2 - x1) * (y2 - y1) : ℤ) : ℚ) ≤ ((max 1 ((x2 - x1) * (y2 - y1)) : ℤ) : ℚ) := by
        exact_mod_cast le_max_right 1 ((x2 - x1) * (y2 - y1))
      linarith
  · simp only [expandMinArea, if_neg hbr]
    exact ⟨⟨h1, h2, h3, h4, h5, h6⟩, by simp⟩

/-- C1 (amended): for every frame `w, h ≥ 1`, every valid detection box and
every configuration with nonnegative padding, the window derived by
`_compute_crop` after the minimum-area expansion step is always fully inside
the frame with width and height at least 1; the area bound
`min_crop_ratio × (w·h)` is guaranteed whenever the padded box already meets
it (so expansion is skipped), but after square re-expansion integer
truncation (and clamping at the frame border) can leave the area slightly
below the bound. -/
theorem claim_C1 (cfg : CropperConfig) {d : IBox} {w h : ℤ} (hpad : 0 ≤ cfg.padFrac)
    (hw : 1 ≤ w) (hh : 1 ≤ h) (hv : validWindow d w h) :
    validWindow (expandMinArea cfg (padBox cfg d w h) w h) w h ∧
    (cfg.minCropFrac * ((w * h : ℤ) : ℚ) ≤ ((boxArea (padBox cfg d w h) : ℤ) : ℚ) →
      cfg.minCropFrac * ((w * h : ℤ) : ℚ) ≤
        ((boxArea (expandMinArea cfg (padBox cfg d w h) w h) : ℤ) : ℚ)) := by
  have hpv := padBox_valid cfg hpad hv
  obtain ⟨hval, hnoexp⟩ := expandMinArea_valid cfg hw hh hpv
  exact ⟨hval, fun har => by rw [hnoexp har]; exact har⟩

/-- Counterexample to C1 as stated (the spec's own worked example, §8):
frame 1000×1000, detection (400,400,600,600), `padding_ratio = 0.1`,
`min_crop_ratio = 0.35`.  The padded box (380,380,620,620) is re-expanded to
(204,204,795,795) — `int()` truncation of `500 ± √350000/2` — whose area
591² = 349281 is below `0.35 × 10⁶ = 350000`. -/
theorem claim_C1_counterexample :
    validWindow (400, 400, 600, 600) 1000 1000 ∧
    ¬ (validWindow (expandMinArea { padFrac := 1/10, minCropFrac := 35/100 }
          (padBox { padFrac := 1/10, minCropFrac := 35/100 } (400, 400, 600, 600) 1000 1000)
          1000 1000) 1000 1000 ∧
        (35/100 : ℚ) * ((1000 * 1000 : ℤ) : ℚ) ≤
          ((boxArea (expandMinArea { padFrac := 1/10, minCropFrac := 35/100 }
            (padBox { padFrac := 1/10, minCropFrac := 35/100 } (400, 400, 600, 600) 1000 1000)
            1000 1000) : ℤ) : ℚ)) := by
  constructor
  · norm_num [validWindow]
  · rw [padBox_eval_cx1, expandMinArea_eval_cx1]
    rintro ⟨-, har⟩
    norm_num [boxArea] at har

/-- Witness for C1 (amended) at the default configuration, frame 1000×1000,
detection (400,400,600,600). -/
theorem claim_C1_witness :
    validWindow (expandMinArea {} (padBox {} (400, 400, 600, 600) 1000 1000) 1000 1000)
      1000 1000 ∧
    (({} : CropperConfig).minCropFrac * ((1000 * 1000 : ℤ) : ℚ) ≤
        ((boxArea (padBox {} (400, 400, 600, 600) 1000 1000) : ℤ) : ℚ) →
      ({} : CropperConfig).minCropFrac * ((1000 * 1000 : ℤ) : ℚ) ≤
        ((boxArea (expandMinArea {} (padBox {} (400, 400, 600, 600) 1000 1000) 1000 1000)
          : ℤ) : ℚ)) :=
  claim_C1 {} (by norm_num) (by norm_num) (by norm_num) (by norm_num [validWindow])

theorem floor_span {c t W : ℚ} (hlo : 0 < ⌊max 0 (c - t/2)⌋) (hhi : ⌊min W (c + t/2)⌋ < ⌊W⌋) :
    |((⌊min W (c + t/2)⌋ - ⌊max 0 (c - t/2)⌋ : ℤ) : ℚ) - t| < 1 := by
  have h1 : (1:ℚ) ≤ max 0 (c - t/2) := by
    calc (1:ℚ) = ((1:ℤ):ℚ) := by norm_num
    _ ≤ ((⌊max 0 (c - t/2)⌋ : ℤ):ℚ) := by exact_mod_cast hlo
    _ ≤ _ := Int.floor_le _
  have hmax : max 0 (c - t/2) = c - t/2 := by
    have h0 : 0 ≤ c - t/2 := by
      by_contra hneg
      push_neg at hneg
      rw [max_eq_left hneg.le] at h1
      linarith
    exact max_eq_right h0
  have hmin : min W (c + t/2) = c + t/2 := by
    rcases le_total (c + t/2) W with hle | hge
    · exact min_eq_right hle
    · rw [min_eq_left hge] at hhi
      exact absurd hhi (lt_irrefl _)
  rw [hmax, hmin]
  rw [hmax] at hlo
  rw [hmin] at hhi
  have hle1 : ((⌊c - t/2⌋ : ℤ) : ℚ) ≤ c - t/2 := Int.floor_le _
  have hlt1 : c - t/2 < ⌊c - t/2⌋ + 1 := Int.lt_floor_add_one _
  have hle2 : ((⌊c + t/2⌋ : ℤ) : ℚ) ≤ c + t/2 := Int.floor_le _
  have hlt2 : c + t/2 < ⌊c + t/2⌋ + 1 := Int.lt_floor_add_one _
  rw [abs_lt]
  constructor <;> push_cast <;> linarith

theorem aspectCorrect_interior (cfg : CropperConfig) (hka : cfg.keepAspect = true)
    {b : IBox} {w h : ℤ} (hw : 1 ≤ w) (hh : 1 ≤ h) (hv : validWindow b w h)
    (h1 : 0 < (aspectCorrect cfg b w h).1) (h2 : 0 < (aspectCorrect cfg b w h).2.1)
    (h3 : (aspectCorrect cfg b w h).2.2.1 < w) (h4 : (aspectCorrect cfg b w h).2.2.2 < h) :
    validWindow (aspectCorrect cfg b w h) w h ∧ aspectOk (aspectCorrect cfg b w h) w h := by
  obtain ⟨x1, y1, x2, y2⟩ := b
  simp only [validWindow] at hv
  obtain ⟨hb1, hb2, hb3, hb4, hb5, hb6⟩ := hv
  have hcw : max 1 (x2 - x1) = x2 - x1 := max_eq_right (by omega)
  have hch : max 1 (y2 - y1) = y2 - y1 := max_eq_right (by omega)
  simp only [aspectCorrect, hka, if_true, hcw, hch] at h1 h2 h3 h4 ⊢
  have hwq : (0:ℚ) < ((w:ℤ):ℚ) := by exact_mod_cast lt_of_lt_of_le one_pos hw
  have hhq : (0:ℚ) < ((h:ℤ):ℚ) := by exact_mod_cast lt_of_lt_of_le one_pos hh
  have hxq : (1:ℚ) ≤ ((x2 - x1 : ℤ):ℚ) := by exact_mod_cast (by omega : (1:ℤ) ≤ x2 - x1)
  have hyq : (1:ℚ) ≤ ((y2 - y1 : ℤ):ℚ) := by exact_mod_cast (by omega : (1:ℤ) ≤ y2 - y1)
  have hta : (0:ℚ) < ((w:ℤ):ℚ) / ((h:ℤ):ℚ) := div_pos hwq hhq
  by_cases hbr : ((w:ℤ):ℚ) / ((h:ℤ):ℚ) < ((x2 - x1 : ℤ):ℚ) / ((y2 - y1 : ℤ):ℚ)
  · -- too wide: height grows; x coordinates unchanged
    simp only [if_pos hbr] at h1 h2 h3 h4 ⊢
    have hnh1 : 1 < ((x2 - x1 : ℤ):ℚ) / (((w:ℤ):ℚ) / ((h:ℤ):ℚ)) := by
      rw [lt_div_iff hta, one_mul]
      calc ((w:ℤ):ℚ) / ((h:ℤ):ℚ) < ((x2 - x1 : ℤ):ℚ) / ((y2 - y1 : ℤ):ℚ) := hbr
      _ ≤ ((x2 - x1 : ℤ):ℚ) := div_le_self (by linarith) hyq
    have hcy : (1:ℚ)/2 ≤ ((y1 + y2 : ℤ):ℚ) / 2 := by
      have hc : (1:ℚ) ≤ ((y1 + y2 : ℤ):ℚ) := by exact_mod_cast (by omega : (1:ℤ) ≤ y1 + y2)
      linarith
    have hminpos : (0:ℚ) ≤ min ((h:ℤ):ℚ)
        (((y1 + y2 : ℤ):ℚ) / 2 + ((x2 - x1 : ℤ):ℚ) / (((w:ℤ):ℚ) / ((h:ℤ):ℚ)) / 2) := by
      refine le_min (by linarith) (by linarith)
    rw [pyInt_eq_floor (le_max_left 0 _)] at h2 ⊢
    rw [pyInt_eq_floor hminpos] at h4 ⊢
    have hhi : ⌊min ((h:ℤ):ℚ)
        (((y1 + y2 : ℤ):ℚ) / 2 + ((x2 - x1 : ℤ):ℚ) / (((w:ℤ):ℚ) / ((h:ℤ):ℚ)) / 2)⌋ <
        ⌊((h:ℤ):ℚ)⌋ := by
      rw [Int.floor_intCast]
      exact h4
    have hspan := floor_span h2 hhi
    -- abbreviations
    set t : ℚ := ((x2 - x1 : ℤ):ℚ) / (((w:ℤ):ℚ) / ((h:ℤ):ℚ)) with hts
    set r1 : ℤ := ⌊max 0 (((y1 + y2 : ℤ):ℚ) / 2 - t / 2)⌋ with hr1
    set r2 : ℤ := ⌊min ((h:ℤ):ℚ) (((y1 + y2 : ℤ):ℚ) / 2 + t / 2)⌋ with hr2
    have hD : 0 < r2 - r1 := by
      have hlow : t - 1 < ((r2 - r1 : ℤ):ℚ) := by
        have := abs_lt.mp hspan
        push_cast at this ⊢
        linarith [this.1]
      have : (0:ℚ) < ((r2 - r1 : ℤ):ℚ) := by linarith
      exact_mod_cast this
    have htw : t * (((w:ℤ):ℚ)) = ((x2 - x1 : ℤ):ℚ) * ((h:ℤ):ℚ) := by
      rw [hts]
      field_simp
    have hkey : |(((x2 - x1) * h - (r2 - r1) * w : ℤ) : ℚ)| < ((w:ℤ):ℚ) := by
      have habs : |(((r2 - r1 : ℤ):ℚ) - t) * ((w:ℤ):ℚ)| < 1 * ((w:ℤ):ℚ) := by
        rw [abs_mul, abs_of_pos hwq]
        exact mul_lt_mul_of_pos_right hspan hwq
      rw [one_mul] at habs
      have hre : (((r2 - r1 : ℤ):ℚ) - t) * ((w:ℤ):ℚ) =
          ((r2 - r1 : ℤ):ℚ) * ((w:ℤ):ℚ) - ((x2 - x1 : ℤ):ℚ) * ((h:ℤ):ℚ) := by
        rw [sub_mul, htw]
      rw [hre] at habs
      rw [← abs_neg] at habs
      have : -(((r2 - r1 : ℤ):ℚ) * ((w:ℤ):ℚ) - ((x2 - x1 : ℤ):ℚ) * ((h:ℤ):ℚ)) =
          (((x2 - x1) * h - (r2 - r1) * w : ℤ) : ℚ) := by
        push_cast
        ring
      rwa [this] at habs
    have hkeyz : |(x2 - x1) * h - (r2 - r1) * w| < w := by
      have := hkey
      rw [← Int.cast_abs] at this
      exact_mod_cast this
    constructor
    · refine ⟨hb1, h2.le, hb3, ?_, hb5, h4.le⟩
      show r1 < r2
      omega
    · simp only [aspectOk]
      have hfin : |(x2 - x1) * h - (r2 - r1) * w| ≤ max w h :=
        (le_of_lt hkeyz).trans (le_max_left w h)
      show |(x2 - x1) * h - (r2 - r1) * w| ≤ max w h
      exact hfin
  · -- too tall (or equal): width grows; y coordinates unchanged
    simp only [if_neg hbr] at h1 h2 h3 h4 ⊢
    push_neg at hbr
    have hyq0 : (0:ℚ) < ((y2 - y1 : ℤ):ℚ) := by linarith
    have hnw1 : 1 ≤ ((y2 - y1 : ℤ):ℚ) * (((w:ℤ):ℚ) / ((h:ℤ):ℚ)) := by
      have hle : ((x2 - x1 : ℤ):ℚ) ≤ ((y2 - y1 : ℤ):ℚ) * (((w:ℤ):ℚ) / ((h:ℤ):ℚ)) := by
        rw [div_le_div_iff hyq0 hhq] at hbr
        rw [← mul_div_assoc, le_div_iff hhq, mul_comm ((y2 - y1 : ℤ):ℚ) ((w:ℤ):ℚ)]
        exact hbr
      linarith
    have hcx : (1:ℚ)/2 ≤ ((x1 + x2 : ℤ):ℚ) / 2 := by
      have hc : (1:ℚ) ≤ ((x1 + x2 : ℤ):ℚ) := by exact_mod_cast (by omega : (1:ℤ) ≤ x1 + x2)
      linarith
    have hminpos : (0:ℚ) ≤ min ((w:ℤ):ℚ)
        (((x1 + x2 : ℤ):ℚ) / 2 + ((y2 - y1 : ℤ):ℚ) * (((w:ℤ):ℚ) / ((h:ℤ):ℚ)) / 2) := by
      refine le_min (by linarith) ?_
      have : (0:ℚ) < ((y2 - y1 : ℤ):ℚ) * (((w:ℤ):ℚ) / ((h:ℤ):ℚ)) := by linarith
      linarith
    rw [pyInt_eq_floor (le_max_left 0 _)] at h1 ⊢
    rw [pyInt_eq_floor hminpos] at h3 ⊢
    have hhi : ⌊min ((w:ℤ):ℚ)
        (((x1 + x2 : ℤ):ℚ) / 2 + ((y2 - y1 : ℤ):ℚ) * (((w:ℤ):ℚ) / ((h:ℤ):ℚ)) / 2)⌋ <
        ⌊((w:ℤ):ℚ)⌋ := by
      rw [Int.floor_intCast]
      exact h3
    have hspan := floor_span h1 hhi
    set t : ℚ := ((y2 - y1 : ℤ):ℚ) * (((w:ℤ):ℚ) / ((h:ℤ):ℚ)) with hts
    set r1 : ℤ := ⌊max 0 (((x1 + x2 : ℤ):ℚ) / 2 - t / 2)⌋ with hr1
    set r2 : ℤ := ⌊min ((w:ℤ):ℚ) (((x1 + x2 : ℤ):ℚ) / 2 + t / 2)⌋ with hr2
    have hD : 0 < r2 - r1 := by
      have hlow : t - 1 < ((r2 - r1 : ℤ):ℚ) := by
        have := abs_lt.mp hspan
        push_cast at this ⊢
        linarith [this.1]
      have : (0:ℚ) < ((r2 - r1 : ℤ):ℚ) := by linarith
      exact_mod_cast this
    have htw : t * ((h:ℤ):ℚ) = ((y2 - y1 : ℤ):ℚ) * ((w:ℤ):ℚ) := by
      rw [hts]
      field_simp
    have hkey : |(((r2 - r1) * h - (y2 - y1) * w : ℤ) : ℚ)| < ((h:ℤ):ℚ) := by
      have habs : |(((r2 - r1 : ℤ):ℚ) - t) * ((h:ℤ):ℚ)| < 1 * ((h:ℤ):ℚ) := by
        rw [abs_mul, abs_of_pos hhq]
        exact mul_lt_mul_of_pos_right hspan hhq
      rw [one_mul] at habs
      have hre : (((r2 - r1 : ℤ):ℚ) - t) * ((h:ℤ):ℚ) =
          (((r2 - r1) * h - (y2 - y1) * w : ℤ) : ℚ) := by
        rw [sub_mul, htw]
        push_cast
        ring
      rwa [hre] at habs
    have hkeyz : |(r2 - r1) * h - (y2 - y1) * w| < h := by
      have := hkey
      rw [← Int.cast_abs] at this
      exact_mod_cast this
    constructor
    · refine ⟨h1.le, hb2, ?_, hb4, h3.le, hb6⟩
      show r1 < r2
      omega
    · simp only [aspectOk]
      have hfin : |(r2 - r1) * h - (y2 - y1) * w| ≤ max w h :=
        (le_of_lt hkeyz).trans (le_max_right w h)
      show |(r2 - r1) * h - (y2 - y1) * w| ≤ max w h
      exact hfin

/-- C3 (amended): when `keep_aspect` is true, the pre-smoothing window of
`_compute_crop` has the frame's aspect ratio within integer-rounding
tolerance (`aspectOk`) provided the aspect-corrected window stays strictly
inside the frame — i.e. the single-axis growth was not cut off by the
frame-bound clamping; under that proviso the final clamp is also the
identity. -/
theorem claim_C3 (cfg : CropperConfig) (hka : cfg.keepAspect = true)
    {d : IBox} {w h : ℤ} (hpad : 0 ≤ cfg.padFrac) (hw : 1 ≤ w) (hh : 1 ≤ h)
    (hv : validWindow d w h)
    (h1 : 0 < (rawWindow cfg d w h).1) (h2 : 0 < (rawWindow cfg d w h).2.1)
    (h3 : (rawWindow cfg d w h).2.2.1 < w) (h4 : (rawWindow cfg d w h).2.2.2 < h) :
    preSmooth cfg d w h = rawWindow cfg d w h ∧ aspectOk (preSmooth cfg d w h) w h := by
  have hbv := (expandMinArea_valid cfg hw hh (padBox_valid cfg hpad hv)).1
  simp only [rawWindow] at h1 h2 h3 h4
  obtain ⟨hvr, hok⟩ := aspectCorrect_interior cfg hka hw hh hbv h1 h2 h3 h4
  have hps : preSmooth cfg d w h = rawWindow cfg d w h := by
    simp only [preSmooth, rawWindow]
    exact clampBox_of_valid hvr
  refine ⟨hps, ?_⟩
  rw [hps]
  simpa only [rawWindow] using hok

theorem padBox_eval_cx3 : padBox {} (0, 0, 1000, 600) 1000 1000 = (0, 0, 1000, 672) := by
  simp only [padBox]
  norm_num
  rw [pyInt_eval (n := 120) (by norm_num) (by norm_num) (by norm_num),
      pyInt_eval (n := 72) (by norm_num) (by norm_num) (by norm_num)]
  norm_num

theorem expandMinArea_eval_cx3 : expandMinArea {} (0, 0, 1000, 672) 1000 1000 = (0, 0, 1000, 672) := by
  simp only [expandMinArea]
  rw [if_neg]
  norm_num

theorem aspectCorrect_eval_cx3 : aspectCorrect {} (0, 0, 1000, 672) 1000 1000 = (0, 0, 1000, 836) := by
  simp only [aspectCorrect]
  norm_num [max_def, min_def]
  rw [pyInt_eval (n := 0) (by norm_num) (by norm_num) (by norm_num),
      pyInt_eval (n := 836) (by norm_num) (by norm_num) (by norm_num)]
  norm_num

theorem clampBox_eval_cx3 : clampBox (0, 0, 1000, 836) 1000 1000 = (0, 0, 1000, 836) := by
  decide

/-- Counterexample to C3 as stated: with the default configuration
(`keep_aspect = true`) on a 1000×1000 frame, detection (0,0,1000,600) pads
to (0,0,1000,672); the aspect correction wants height 1000 centred at
`cy = 336` but clamping cuts it to (0,0,1000,836), whose aspect differs
from 1:1 by 164 pixels — far beyond integer-rounding tolerance. -/
theorem claim_C3_counterexample :
    validWindow (0, 0, 1000, 600) 1000 1000 ∧
    ({} : CropperConfig).keepAspect = true ∧
    ¬ aspectOk (preSmooth {} (0, 0, 1000, 600) 1000 1000) 1000 1000 := by
  refine ⟨by norm_num [validWindow], rfl, ?_⟩
  simp only [preSmooth, rawWindow, padBox_eval_cx3, expandMinArea_eval_cx3, aspectCorrect_eval_cx3, clampBox_eval_cx3]
  decide

theorem padBox_eval_w3 : padBox {} (300, 300, 600, 640) 1000 1000 = (264, 260, 636, 680) := by
  simp only [padBox]
  norm_num
  rw [pyInt_eval (n := 36) (by norm_num) (by norm_num) (by norm_num),
      pyInt_eval (n := 40) (by norm_num) (by norm_num) (by norm_num)]
  norm_num

theorem expandMinArea_eval_w3 : expandMinArea {} (264, 260, 636, 680) 1000 1000 = (154, 174, 745, 765) := by
  simp only [expandMinArea]
  rw [if_pos]
  · rw [ratSqrt_val_350000]
    norm_num [max_def, min_def]
    rw [pyInt_eval (n := 154) (by norm_num) (by norm_num) (by norm_num),
        pyInt_eval (n := 174) (by norm_num) (by norm_num) (by norm_num),
        pyInt_eval (n := 745) (by norm_num) (by norm_num) (by norm_num),
        pyInt_eval (n := 765) (by norm_num) (by norm_num) (by norm_num)]
    norm_num
  · norm_num

theorem aspectCorrect_eval_w3 : aspectCorrect {} (154, 174, 745, 765) 1000 1000 = (154, 174, 745, 765) := by
  simp only [aspectCorrect]
  norm_num [max_def, min_def]
  rw [pyInt_eval (n := 154) (by norm_num) (by norm_num) (by norm_num),
      pyInt_eval (n := 745) (by norm_num) (by norm_num) (by norm_num)]
  norm_num

/-- Witness for C3 (amended): detection (300,300,600,640) in a 1000×1000
frame under the default configuration — the corrected window
(154,174,745,765) is interior and matches the frame aspect exactly. -/
theorem claim_C3_witness :
    preSmooth {} (300, 300, 600, 640) 1000 1000 =
      rawWindow {} (300, 300, 600, 640) 1000 1000 ∧
    aspectOk (preSmooth {} (300, 300, 600, 640) 1000 1000) 1000 1000 := by
  have hraw : rawWindow {} (300, 300, 600, 640) 1000 1000 = (154, 174, 745, 765) := by
    simp only [rawWindow, padBox_eval_w3, expandMinArea_eval_w3, aspectCorrect_eval_w3]
  exact claim_C3 {} rfl (by norm_num) (by norm_num) (by norm_num)
    (by norm_num [validWindow]) (by rw [hraw]; norm_num) (by rw [hraw]; norm_num)
    (by rw [hraw]; norm_num) (by rw [hraw]; norm_num)

theorem truncQBox_toQBox (b : IBox) : truncQBox (toQBox b) = b := by
  obtain ⟨x1, y1, x2, y2⟩ := b
  simp [truncQBox, toQBox, pyInt_intCast]

/-- C5 (amended): with no detection, `_compute_crop` returns the full frame
`(0,0,w,h)` immediately, bypassing the clamp and the EMA smoother entirely
(the smoother state is unchanged); when a detection is present, the clamped
raw window is fed through the smoother — the first window becoming the
initial state unchanged — and re-clamped, so on a fresh smoother the window
comes back exactly. -/
theorem claim_C5 (cfg : CropperConfig) (st : Option QBox) (d : IBox) {w h : ℤ}
    (hw : 1 ≤ w) (hh : 1 ≤ h) :
    computeCrop cfg st none w h = ((0, 0, w, h), st) ∧
    computeCrop cfg none (some d) w h =
      (preSmooth cfg d w h, some (toQBox (preSmooth cfg d w h))) := by
  refine ⟨rfl, ?_⟩
  simp only [computeCrop, smootherUpdate]
  have hv : validWindow (preSmooth cfg d w h) w h := by
    simp only [preSmooth]
    exact clampBox_valid _ hw hh
  rw [truncQBox_toQBox, clampBox_of_valid hv]

/-- Counterexample to C5 as stated: with smoother state `(20,20,79,79)` and
no detection on a 100×100 frame, the code (`computeCrop`) returns the full
frame `(0,0,100,100)` untouched, while the spec's per-frame
clamp-smooth-reclamp pipeline (`computeCropSpec`) would return
`(17,17,82,82)` — the no-detection path bypasses the smoother. -/
theorem claim_C5_counterexample :
    (computeCrop {} (some (20, 20, 79, 79)) none 100 100).1 = (0, 0, 100, 100) ∧
    (computeCropSpec {} (some (20, 20, 79, 79)) none 100 100).1 = (17, 17, 82, 82) ∧
    (computeCrop {} (some (20, 20, 79, 79)) none 100 100).1 ≠
      (computeCropSpec {} (some (20, 20, 79, 79)) none 100 100).1 := by
  have h2 : (computeCropSpec {} (some (20, 20, 79, 79)) none 100 100).1 = (17, 17, 82, 82) := by
    simp only [computeCropSpec]
    rw [show clampBox (0, 0, 100, 100) 100 100 = (0, 0, 100, 100) from by decide]
    simp only [smootherUpdate, toQBox, truncQBox]
    norm_num
    rw [pyInt_eval (n := 17) (by norm_num) (by norm_num) (by norm_num),
        pyInt_eval (n := 82) (by norm_num) (by norm_num) (by norm_num)]
    decide
  refine ⟨rfl, h2, ?_⟩
  rw [h2]
  intro hco
  exact absurd hco (by decide)

/-- Witness for C5 (amended) at the default configuration on a 100×100
frame. -/
theorem claim_C5_witness :
    computeCrop {} (some (1, 2, 3, 4)) none 100 100 = ((0, 0, 100, 100), some (1, 2, 3, 4)) ∧
    computeCrop {} none (some (10, 10, 20, 20)) 100 100 =
      (preSmooth {} (10, 10, 20, 20) 100 100,
       some (toQBox (preSmooth {} (10, 10, 20, 20) 100 100))) :=
  claim_C5 {} (some (1, 2, 3, 4)) (10, 10, 20, 20) (by norm_num) (by norm_num)
